import Mathlib

/-!
Shallow embedding of the data pipeline of `finalproject_visdat.py`
(air-quality / noise-reduction dashboard).

A table is a list of `Row`s.  Each row carries an area identifier, a
co-benefit category string, and one numeric cell per year column
2025..2050; a missing cell (pandas `NaN`) is `none`.  Numeric values are
rationals.  Pandas `sum()` skips missing values, which we model by
summing `Option.getD · 0`.

The cleaning block (lines 106–109 of the source) and every aggregation
expression used by the charts are translated below, keeping the source's
variable names where possible (`air_total`, `air_top5`, `df_years`,
`x_mean`, ...).  `groupby` sorts its keys ascending;
`sort_values(ascending=False)` — whose default quicksort leaves tie
order unspecified — is modelled by an insertion sort realizing one
admissible descending order.
-/

/-- Index of a year column: `y : Year` stands for column `2025 + y`. -/
abbrev Year : Type := Fin 26

/-- The year printed for an index, as in `tahun_cols`. -/
def yearLabel (y : Year) : ℕ := 2025 + y.val

/-- One row of the spreadsheet: `small_area`, `co-benefit_type`, and the
26 numeric year cells (a missing cell is `none`). -/
structure Row where
  small_area : String
  cb_type : String
  vals : Year → Option ℚ
deriving DecidableEq

/-- Pandas `sum()` skips `NaN`: a missing cell contributes `0`. -/
def valD (o : Option ℚ) : ℚ := o.getD 0

/-- Line 106: the row's category is one of the two recognized values. -/
def recognizedRow (r : Row) : Bool :=
  r.cb_type == "air_quality" || r.cb_type == "noise"

/-- Line 106: `df = df[df['co-benefit_type'].isin(['air_quality', 'noise'])]`. -/
def filterCategories (rows : List Row) : List Row :=
  rows.filter recognizedRow

/-- Helper for `drop_duplicates`: keep the first occurrence of each
element, tracking what has been seen. -/
def dropDupAux {α : Type} [DecidableEq α] : List α → List α → List α
  | _, [] => []
  | seen, a :: rest =>
      if a ∈ seen then dropDupAux seen rest
      else a :: dropDupAux (a :: seen) rest

/-- Line 107: `df.drop_duplicates()` — remove exact duplicates, keeping
the first occurrence, preserving order. -/
def drop_duplicates {α : Type} [DecidableEq α] (l : List α) : List α :=
  dropDupAux [] l

/-- Pandas `Series.median()` over the non-missing entries: sort, take the
middle element (odd count) or the average of the two middle elements
(even count); `NaN` (here `none`) when no entry is present. -/
def median (l : List ℚ) : Option ℚ :=
  let s := List.insertionSort (· ≤ ·) l
  if s.length = 0 then none
  else if s.length % 2 = 1 then some (s.getD (s.length / 2) 0)
  else some ((s.getD (s.length / 2 - 1) 0 + s.getD (s.length / 2) 0) / 2)

/-- Line 109, `df[num_cols].median()`: the median of one year column over
the whole table (both categories mixed). -/
def colMedian (rows : List Row) (y : Year) : Option ℚ :=
  median (rows.filterMap (fun r => r.vals y))

/-- Line 109, `fillna`: replace each missing cell of a row by the column
median of `rows` (when that median is itself `NaN`, the cell stays
missing, as pandas leaves it). -/
def fillRow (rows : List Row) (r : Row) : Row :=
  { r with vals := fun y => (r.vals y).orElse (fun _ => colMedian rows y) }

/-- Line 109: `df[num_cols] = df[num_cols].fillna(df[num_cols].median())`. -/
def fillna (rows : List Row) : List Row :=
  rows.map (fillRow rows)

/-- The full cleaning block, lines 106–109: category filter, duplicate
removal, median imputation. -/
def clean (raw : List Row) : List Row :=
  fillna (drop_duplicates (filterCategories raw))

/-- `df[df['co-benefit_type'] == cat]`. -/
def rowsOf (rows : List Row) (cat : String) : List Row :=
  rows.filter (fun r => r.cb_type == cat)

/-- `frame[col].sum()` for one year column. -/
def colSum (rows : List Row) (y : Year) : ℚ :=
  (rows.map (fun r => valD (r.vals y))).sum

/-- Line 318: `air_year = df[df['co-benefit_type'] == 'air_quality'][tahun_cols].sum()`. -/
def air_year (rows : List Row) (y : Year) : ℚ :=
  colSum (rowsOf rows "air_quality") y

/-- Line 319: `noise_year = df[df['co-benefit_type'] == 'noise'][tahun_cols].sum()`. -/
def noise_year (rows : List Row) (y : Year) : ℚ :=
  colSum (rowsOf rows "noise") y

/-- The per-year series of one category, as a `(year, total)` list in
column order (ascending years), as assembled into `df_years`. -/
def yearlySeries (rows : List Row) (cat : String) : List (ℕ × ℚ) :=
  (List.finRange 26).map (fun y => (yearLabel y, colSum (rowsOf rows cat) y))

/-- Lines 321–325: `df_years` with its `Year`, air and noise columns. -/
def df_years (rows : List Row) : List (ℕ × ℚ × ℚ) :=
  (List.finRange 26).map (fun y => (yearLabel y, air_year rows y, noise_year rows y))

/-- Line 172: `air_total = df[df['co-benefit_type'] == 'air_quality'][tahun_cols].sum().sum()`. -/
def air_total (rows : List Row) : ℚ :=
  ((List.finRange 26).map (air_year rows)).sum

/-- Line 173: `noise_total`, the same for the noise category. -/
def noise_total (rows : List Row) : ℚ :=
  ((List.finRange 26).map (noise_year rows)).sum

/-- `row[tahun_cols].sum()`: the sum of the 26 year cells of one row. -/
def rowTotal (r : Row) : ℚ :=
  ((List.finRange 26).map (fun y => valD (r.vals y))).sum

/-- Ascending sort of strings (the order `groupby` lists its keys in). -/
def sortStrings (l : List String) : List String :=
  List.insertionSort (· ≤ ·) l

/-- `groupby('small_area')` group keys: the distinct areas, sorted
ascending (pandas `groupby` sorts keys by default). -/
def groupKeys (rows : List Row) : List String :=
  sortStrings (drop_duplicates (rows.map Row.small_area))

/-- Lines 192–197 up to `reset_index`: per-area totals of one category,
`groupby('small_area')[tahun_cols].sum().sum(axis=1)`, listed in group
key order. -/
def areaTotals (rows : List Row) (cat : String) : List (String × ℚ) :=
  (groupKeys (rowsOf rows cat)).map
    (fun a => (a, (((rowsOf rows cat).filter (fun r => r.small_area == a)).map rowTotal).sum))

/-- Descending comparison on the value component, the order used by
`sort_values(total, ascending=False)`. -/
def valGe (p q : String × ℚ) : Prop := q.2 ≤ p.2

instance : DecidableRel valGe := fun p q => inferInstanceAs (Decidable (q.2 ≤ p.2))

/-- `sort_values(ascending=False)` on the value column.  Pandas' default
sort kind (quicksort) leaves the relative order of tied values
unspecified; this model realizes one admissible descending order (an
insertion sort), and the theorems below use it only through properties
that hold for every descending-by-value order (value order, length,
membership). -/
def sort_values_desc (l : List (String × ℚ)) : List (String × ℚ) :=
  List.insertionSort valGe l

/-- `sort_values(total, ascending=False).head(n)`. -/
def topN (totals : List (String × ℚ)) (n : ℕ) : List (String × ℚ) :=
  (sort_values_desc totals).take n

/-- Lines 192–200: `air_top5`. -/
def air_top5 (rows : List Row) : List (String × ℚ) :=
  topN (areaTotals rows "air_quality") 5

/-- Lines 230–238: `noise_top5`. -/
def noise_top5 (rows : List Row) : List (String × ℚ) :=
  topN (areaTotals rows "noise") 5

/-- Line 404: `x_mean = df_years["Air Quality Improvement"].mean()`. -/
def x_mean (rows : List Row) : ℚ :=
  ((List.finRange 26).map (air_year rows)).sum / 26

/-- Line 405: `y_mean = df_years["Noise Reduction"].mean()`. -/
def y_mean (rows : List Row) : ℚ :=
  ((List.finRange 26).map (noise_year rows)).sum / 26

/-- Lines 407–412: the `np.where` classification of one year. -/
def comfortZone (rows : List Row) (y : Year) : String :=
  if air_year rows y > x_mean rows ∧ noise_year rows y < y_mean rows
  then "Most Comfortable" else "Other"

/-- The `Comfort Zone` column of `df_years`: one label per year, in year
order. -/
def comfortLabels (rows : List Row) : List (ℕ × String) :=
  (List.finRange 26).map (fun y => (yearLabel y, comfortZone rows y))

/-- Line 351: `air_2025 = df[df['co-benefit_type'] == 'air_quality']['2025'].sum()`. -/
def air_2025 (rows : List Row) : ℚ := colSum (rowsOf rows "air_quality") 0

/-- Line 352: `air_2050`. -/
def air_2050 (rows : List Row) : ℚ := colSum (rowsOf rows "air_quality") 25

/-- Line 354: `noise_2025`. -/
def noise_2025 (rows : List Row) : ℚ := colSum (rowsOf rows "noise") 0

/-- Line 355: `noise_2050`. -/
def noise_2050 (rows : List Row) : ℚ := colSum (rowsOf rows "noise") 25

/-- Lines 351–362: the four scalars of the before/after comparison,
`(air@2025, air@2050, noise@2025, noise@2050)`. -/
def before_after (rows : List Row) : ℚ × ℚ × ℚ × ℚ :=
  (air_2025 rows, air_2050 rows, noise_2025 rows, noise_2050 rows)

/-- Descending comparison on the total component of a `(area, category,
total)` triple, as used by the combined ranking's `sort_values`. -/
def totalGe (p q : String × String × ℚ) : Prop := q.2.2 ≤ p.2.2

instance : DecidableRel totalGe := fun p q => inferInstanceAs (Decidable (q.2.2 ≤ p.2.2))

/-- Lexicographic order on `(small_area, co-benefit_type)` keys, the
order `groupby(['small_area', 'co-benefit_type'])` lists groups in. -/
def pairLe (p q : String × String) : Prop := p.1 < q.1 ∨ (p.1 = q.1 ∧ p.2 ≤ q.2)

instance : DecidableRel pairLe :=
  fun p q => inferInstanceAs (Decidable (p.1 < q.1 ∨ (p.1 = q.1 ∧ p.2 ≤ q.2)))

/-- The sorted distinct `(area, category)` keys of the combined ranking. -/
def groupPairs (rows : List Row) : List (String × String) :=
  List.insertionSort pairLe (drop_duplicates (rows.map (fun r => (r.small_area, r.cb_type))))

/-- Lines 287–292: `area_total`, the per-`(area, category)` totals. -/
def area_total (rows : List Row) : List (String × String × ℚ) :=
  (groupPairs rows).map (fun k => (k.1, k.2,
    ((rows.filter (fun r => r.small_area == k.1 && r.cb_type == k.2)).map rowTotal).sum))

/-- Line 295: `area_total.sort_values("Total Value", ascending=False).head(10)`. -/
def combinedAreaRanking (rows : List Row) : List (String × String × ℚ) :=
  (List.insertionSort totalGe (area_total rows)).take 10

/-- The pairwise-complete observations of two year columns, as pandas
`corr` collects them for one matrix entry. -/
def corrPoints (rows : List Row) (i j : Year) : List (ℚ × ℚ) :=
  rows.filterMap (fun r =>
    match r.vals i, r.vals j with
    | some a, some b => some (a, b)
    | _, _ => none)

/-- Line 268, one entry of `corr = df[tahun_cols].corr()`.  The Pearson
coefficient of columns `i`, `j` is `sxy / sqrt (sxx * syy)` where `sxy`
is the sum of products of deviations and `sxx`, `syy` the sums of squared
deviations; since the square root is irrational we return the pair
`(sxy, sxx * syy)`, from which the coefficient is uniquely determined.
`none` models the `NaN` pandas produces when fewer than two complete
pairs exist or one of the columns has zero variance. -/
def corrEntry (rows : List Row) (i j : Year) : Option (ℚ × ℚ) :=
  let pts := corrPoints rows i j
  if pts.length < 2 then none
  else
    let n : ℚ := pts.length
    let mx := (pts.map Prod.fst).sum / n
    let my := (pts.map Prod.snd).sum / n
    let sxx := (pts.map (fun p => (p.1 - mx) ^ 2)).sum
    let syy := (pts.map (fun p => (p.2 - my) ^ 2)).sum
    let sxy := (pts.map (fun p => (p.1 - mx) * (p.2 - my))).sum
    if sxx = 0 ∨ syy = 0 then none else some (sxy, sxx * syy)

/-- Lines 442–447: `map_df`, the per-area sums of the selected year
column for the selected category. -/
def map_df (rows : List Row) (selType : String) (selYear : Year) : List (String × ℚ) :=
  (groupKeys (rowsOf rows selType)).map
    (fun a => (a, colSum ((rowsOf rows selType).filter (fun r => r.small_area == a)) selYear))

/-- Lines 450–451: the simulated coordinates.  The two
`np.random.uniform(lo, hi, n)` calls consume `n` latitude draws and then
`n` longitude draws from the ambient numpy generator, modelled here as
reads from the stream `rng`. -/
def simCoords (n : ℕ) (rng : ℕ → ℚ) : List (ℚ × ℚ) :=
  (List.range n).map (fun k => (rng k, rng (n + k)))

/-- Every aggregated (non-random) output of one full pass of the
dashboard over the cleaned table. -/
structure Outputs where
  out_air_total : ℚ
  out_noise_total : ℚ
  out_air_top5 : List (String × ℚ)
  out_noise_top5 : List (String × ℚ)
  out_corr : Year → Year → Option (ℚ × ℚ)
  out_ranking : List (String × String × ℚ)
  out_df_years : List (ℕ × ℚ × ℚ)
  out_before_after : ℚ × ℚ × ℚ × ℚ
  out_comfort : List (ℕ × String)
  out_map_vals : List (String × ℚ)

/-- One full recomputation pass of every aggregate from the cached
cleaned table. -/
def aggregates (rows : List Row) (selType : String) (selYear : Year) : Outputs where
  out_air_total := air_total rows
  out_noise_total := noise_total rows
  out_air_top5 := air_top5 rows
  out_noise_top5 := noise_top5 rows
  out_corr := corrEntry rows
  out_ranking := combinedAreaRanking rows
  out_df_years := df_years rows
  out_before_after := before_after rows
  out_comfort := comfortLabels rows
  out_map_vals := map_df rows selType selYear

/-- One full run: the aggregated outputs plus the randomly simulated map
coordinates, the only part that reads the random stream. -/
def fullRun (rows : List Row) (selType : String) (selYear : Year) (rng : ℕ → ℚ) :
    Outputs × List (ℚ × ℚ) :=
  (aggregates rows selType selYear, simCoords (map_df rows selType selYear).length rng)

/-! ### General helper lemmas -/

theorem mem_dropDupAux {α : Type} [DecidableEq α] {a : α} :
    ∀ {seen l : List α}, a ∈ dropDupAux seen l ↔ a ∈ l ∧ a ∉ seen := by
  intro seen l
  induction l generalizing seen with
  | nil => simp [dropDupAux]
  | cons b rest ih =>
    by_cases hb : b ∈ seen
    · rw [dropDupAux, if_pos hb, ih]
      constructor
      · exact fun h => ⟨List.mem_cons_of_mem _ h.1, h.2⟩
      · rintro ⟨hm, hs⟩
        rcases List.mem_cons.mp hm with rfl | hm
        · exact absurd hb hs
        · exact ⟨hm, hs⟩
    · rw [dropDupAux, if_neg hb]
      constructor
      · intro h
        rcases List.mem_cons.mp h with rfl | h
        · exact ⟨List.mem_cons_self _ _, hb⟩
        · have := ih.mp h
          exact ⟨List.mem_cons_of_mem _ this.1,
            fun hs => this.2 (List.mem_cons_of_mem _ hs)⟩
      · rintro ⟨hm, hs⟩
        rcases List.mem_cons.mp hm with rfl | hm
        · exact List.mem_cons_self _ _
        · by_cases hab : a = b
          · subst hab; exact List.mem_cons_self _ _
          · exact List.mem_cons_of_mem _ (ih.mpr ⟨hm, by simp [hs, hab]⟩)

theorem mem_drop_duplicates {α : Type} [DecidableEq α] {a : α} {l : List α} :
    a ∈ drop_duplicates l ↔ a ∈ l := by
  rw [drop_duplicates, mem_dropDupAux]
  simp

theorem nodup_dropDupAux {α : Type} [DecidableEq α] :
    ∀ (seen l : List α), (dropDupAux seen l).Nodup := by
  intro seen l
  induction l generalizing seen with
  | nil => simp [dropDupAux]
  | cons b rest ih =>
    by_cases hb : b ∈ seen
    · rw [dropDupAux, if_pos hb]; exact ih seen
    · rw [dropDupAux, if_neg hb]
      refine List.nodup_cons.mpr ⟨fun hmem => ?_, ih (b :: seen)⟩
      exact (mem_dropDupAux.mp hmem).2 (List.mem_cons_self _ _)

theorem nodup_drop_duplicates {α : Type} [DecidableEq α] (l : List α) :
    (drop_duplicates l).Nodup :=
  nodup_dropDupAux [] l

theorem sum_map_add {α : Type} (l : List α) (f g : α → ℚ) :
    (l.map (fun x => f x + g x)).sum = (l.map f).sum + (l.map g).sum := by
  induction l with
  | nil => simp
  | cons a t ih => simp [ih]; ring

instance : IsTotal (String × ℚ) valGe := ⟨fun a b => le_total b.2 a.2⟩

instance : IsTrans (String × ℚ) valGe := ⟨fun _ _ _ hab hbc => le_trans hbc hab⟩

theorem sorted_sort_values (l : List (String × ℚ)) :
    List.Pairwise valGe (sort_values_desc l) :=
  List.sorted_insertionSort valGe l

theorem topN_sorted_ge (l : List (String × ℚ)) (n : ℕ) :
    List.Sorted (· ≥ ·) ((topN l n).map Prod.snd) := by
  refine List.pairwise_map.mpr ?_
  exact ((sorted_sort_values l).take).imp (fun h => h)

/-- C1: a year is labelled `Most Comfortable` exactly when its air total
strictly exceeds the air mean and its noise total is strictly below the
noise mean; in every other case — including exact equality with the air
mean — the label is `Other`. -/
theorem comfortZone_iff (rows : List Row) (y : Year) :
    (comfortZone rows y = "Most Comfortable" ↔
      air_year rows y > x_mean rows ∧ noise_year rows y < y_mean rows) ∧
    (comfortZone rows y = "Most Comfortable" ∨ comfortZone rows y = "Other") ∧
    (air_year rows y = x_mean rows → comfortZone rows y = "Other") := by
  unfold comfortZone
  split_ifs with h
  · exact ⟨⟨fun _ => h, fun _ => rfl⟩, Or.inl rfl,
      fun he => absurd h (by rw [he]; exact fun hc => lt_irrefl _ hc.1)⟩
  · exact ⟨⟨fun he => absurd he (by decide), fun hc => absurd hc h⟩,
      Or.inr rfl, fun _ => rfl⟩

/-- An air-quality row on area `W` with all cells 1 (so every yearly
total equals the series mean exactly). -/
def rowC1 : Row := ⟨"W", "air_quality", fun _ => some 1⟩

theorem comfortZone_iff_witness : comfortZone [rowC1] 0 = "Other" := by
  have hay : ∀ y : Year, air_year [rowC1] y = 1 := by
    intro y
    show colSum [rowC1] y = 1
    simp [colSum, rowC1, valD]
  have hx : x_mean [rowC1] = 1 := by
    rw [x_mean, List.map_congr_left (fun (y : Year) _ => hay y),
      List.map_const', List.sum_replicate, List.length_finRange]
    norm_num
  exact (comfortZone_iff [rowC1] 0).2.2 (by rw [hay, hx])

/-- C5: the values returned by `topN` are non-increasing, the output
length is `min n` (the number of entries of the totals mapping), and
every returned value dominates every value that was not returned. -/
theorem topN_spec (totals : List (String × ℚ)) (n : ℕ) :
    List.Sorted (· ≥ ·) ((topN totals n).map Prod.snd) ∧
    (topN totals n).length = min n totals.length ∧
    ∀ p ∈ topN totals n, ∀ q ∈ (sort_values_desc totals).drop n, q.2 ≤ p.2 := by
  refine ⟨topN_sorted_ge totals n, ?_, ?_⟩
  · simp [topN, sort_values_desc, List.length_take, List.length_insertionSort]
  · intro p hp q hq
    have hs := sorted_sort_values totals
    rw [← List.take_append_drop n (sort_values_desc totals)] at hs
    exact (List.pairwise_append.mp hs).2.2 p hp q hq

/-- C6: `yearlySeries` has exactly 26 entries, its years are strictly
ascending, and the entry for year column `y` carries the sum of that
category's rows in that column. -/
theorem yearlySeries_shape (rows : List Row) (cat : String) :
    (yearlySeries rows cat).length = 26 ∧
    List.Sorted (· < ·) ((yearlySeries rows cat).map Prod.fst) ∧
    ∀ y : Year, (yearlySeries rows cat).getD y.val (0, 0)
      = (2025 + y.val,
        ((rows.filter (fun r => r.cb_type == cat)).map (fun r => valD (r.vals y))).sum) := by
  refine ⟨by simp [yearlySeries], ?_, ?_⟩
  · rw [yearlySeries, List.map_map]
    refine List.pairwise_map.mpr ?_
    exact (List.pairwise_lt_finRange 26).imp
      (fun h => by simpa [yearLabel] using Nat.add_lt_add_left h 2025)
  · intro y
    have hlen : y.val < (yearlySeries rows cat).length := by
      simp [yearlySeries]
    rw [List.getD_eq_getElem _ _ hlen]
    simp [yearlySeries, yearLabel, rowsOf, colSum]

/-- C7: on a table whose air and noise categories each hold exactly one
row, `before_after` returns precisely those rows' 2025 and 2050 cells. -/
theorem before_after_roundtrip (rows : List Row) (ra rn : Row) (a1 a2 b1 b2 : ℚ)
    (hair : rowsOf rows "air_quality" = [ra]) (hnoise : rowsOf rows "noise" = [rn])
    (h1 : ra.vals 0 = some a1) (h2 : ra.vals 25 = some a2)
    (h3 : rn.vals 0 = some b1) (h4 : rn.vals 25 = some b2) :
    before_after rows = (a1, a2, b1, b2) := by
  simp [before_after, air_2025, air_2050, noise_2025, noise_2050, colSum,
    hair, hnoise, valD, h1, h2, h3, h4]

/-- One air row with 2025 cell 10 and every later cell 20. -/
def rowC7air : Row := ⟨"A", "air_quality", fun y => if y = 0 then some 10 else some 20⟩

/-- One noise row with all cells 5. -/
def rowC7noise : Row := ⟨"B", "noise", fun _ => some 5⟩

theorem before_after_roundtrip_witness :
    before_after [rowC7air, rowC7noise] = (10, 20, 5, 5) :=
  before_after_roundtrip [rowC7air, rowC7noise] rowC7air rowC7noise 10 20 5 5
    rfl rfl rfl rfl rfl rfl

theorem topN_spec_witness :
    ("A", (2:ℚ)) ∈ topN [("A", 2), ("B", 1)] 1 ∧
    ("B", (1:ℚ)) ∈ (sort_values_desc [("A", 2), ("B", 1)]).drop 1 ∧
    (("B", (1:ℚ)).2 ≤ ("A", (2:ℚ)).2) :=
  ⟨by decide, by decide,
    (topN_spec [("A", 2), ("B", 1)] 1).2.2 _ (by decide) _ (by decide)⟩

theorem colSum_cons (r : Row) (t : List Row) (y : Year) :
    colSum (r :: t) y = valD (r.vals y) + colSum t y := by
  simp [colSum]

theorem sum_years_eq_sum_rows (l : List Row) :
    ((List.finRange 26).map (fun y => colSum l y)).sum = (l.map rowTotal).sum := by
  induction l with
  | nil => simp [colSum]
  | cons r t ih =>
    have hfun : (fun y => colSum (r :: t) y)
        = fun y => valD (r.vals y) + colSum t y := by
      funext y; simp [colSum]
    rw [hfun, sum_map_add, ih]
    simp [rowTotal]

theorem sum_map_filter_split {α : Type} (l : List α) (p : α → Bool) (f : α → ℚ) :
    (l.map f).sum
      = ((l.filter p).map f).sum + ((l.filter (fun a => !(p a))).map f).sum := by
  induction l with
  | nil => simp
  | cons a t ih => by_cases h : p a <;> simp [h, ih] <;> ring

theorem sum_groups :
    ∀ (keys : List String) (l : List Row), keys.Nodup →
      (∀ r ∈ l, r.small_area ∈ keys) →
      (keys.map (fun a => ((l.filter (fun r => r.small_area == a)).map rowTotal).sum)).sum
        = (l.map rowTotal).sum := by
  intro keys
  induction keys with
  | nil =>
    intro l _ hcov
    have hl : l = [] :=
      List.eq_nil_iff_forall_not_mem.mpr
        (fun r hr => absurd (hcov r hr) (List.not_mem_nil _))
    simp [hl]
  | cons a ks ih =>
    intro l hnd hcov
    rw [List.map_cons, List.sum_cons,
      sum_map_filter_split l (fun r => r.small_area == a) rowTotal]
    congr 1
    rw [← ih (l.filter (fun r => !(r.small_area == a))) (List.nodup_cons.mp hnd).2 ?_]
    · refine congrArg _ (List.map_congr_left ?_)
      intro b hb
      have hba : b ≠ a := fun h => (List.nodup_cons.mp hnd).1 (h ▸ hb)
      rw [List.filter_filter]
      refine congrArg (fun t => (List.map rowTotal t).sum) (Eq.symm (List.filter_congr ?_))
      intro r _
      by_cases h : r.small_area = b
      · simp [h, hba]
      · simp [h]
    · intro r hr
      have hm := List.mem_of_mem_filter hr
      have hf := List.of_mem_filter hr
      rcases List.mem_cons.mp (hcov r hm) with h | h
      · simp [h] at hf
      · exact h

/-- C10: for either category, the grand total computed column-wise
(`air_total` / `noise_total`) equals the sum of the yearly series and the
sum of the per-area totals. -/
theorem aggregation_paths_agree (rows : List Row) (cat : String) :
    ((List.finRange 26).map (fun y => colSum (rowsOf rows cat) y)).sum
        = ((yearlySeries rows cat).map Prod.snd).sum ∧
    ((List.finRange 26).map (fun y => colSum (rowsOf rows cat) y)).sum
        = ((areaTotals rows cat).map Prod.snd).sum ∧
    air_total rows
        = ((List.finRange 26).map (fun y => colSum (rowsOf rows "air_quality") y)).sum ∧
    noise_total rows
        = ((List.finRange 26).map (fun y => colSum (rowsOf rows "noise") y)).sum := by
  refine ⟨?_, ?_, rfl, rfl⟩
  · rw [yearlySeries, List.map_map]
    rfl
  · rw [sum_years_eq_sum_rows, areaTotals, List.map_map]
    have hnd : (groupKeys (rowsOf rows cat)).Nodup := by
      rw [groupKeys, sortStrings]
      exact (List.perm_insertionSort _ _).nodup_iff.mpr
        (nodup_drop_duplicates _)
    have hcov : ∀ r ∈ rowsOf rows cat, r.small_area ∈ groupKeys (rowsOf rows cat) := by
      intro r hr
      rw [groupKeys, sortStrings, List.mem_insertionSort, mem_drop_duplicates]
      exact List.mem_map_of_mem _ hr
    exact (sum_groups (groupKeys (rowsOf rows cat)) (rowsOf rows cat) hnd hcov).symm

/-- An air-quality row whose 2025 cell is missing and whose other cells
are 1. -/
def rowC4 : Row := ⟨"A", "air_quality", fun y => if y = 0 then none else some 1⟩

/-- An air-quality row with all cells 3. -/
def rowC4b : Row := ⟨"B", "air_quality", fun _ => some 3⟩

/-- C4 counterexample: on a table whose 2025 column is entirely missing,
the column median is `NaN` and `fillna` leaves the cell missing, so the
cleaned table still has a missing numeric cell. -/
theorem clean_missing_cell_cex :
    (clean [rowC4]).map (fun r => r.vals 0) = [none] := rfl

/-- C4 amended: provided the column has at least one non-missing entry in
the filtered, deduplicated table (so its median is not `NaN`), no cell of
that column is missing after cleaning, and every previously missing cell
is replaced by exactly that column's median over the entire filtered,
deduplicated table. -/
theorem clean_fills_median (raw : List Row) (y : Year)
    (h : (colMedian (drop_duplicates (filterCategories raw)) y).isSome) :
    (∀ r ∈ clean raw, (r.vals y).isSome) ∧
    (∀ r ∈ drop_duplicates (filterCategories raw), r.vals y = none →
      (fillRow (drop_duplicates (filterCategories raw)) r).vals y
          = colMedian (drop_duplicates (filterCategories raw)) y ∧
      fillRow (drop_duplicates (filterCategories raw)) r ∈ clean raw) := by
  constructor
  · intro r hr
    have hr2 : r ∈ List.map (fillRow (drop_duplicates (filterCategories raw)))
        (drop_duplicates (filterCategories raw)) := hr
    rcases List.mem_map.mp hr2 with ⟨r0, _, rfl⟩
    show ((r0.vals y).orElse (fun _ => colMedian (drop_duplicates (filterCategories raw)) y)).isSome
    cases hv : r0.vals y
    · simpa [Option.orElse] using h
    · simp [Option.orElse]
  · intro r hr hnone
    refine ⟨?_, List.mem_map_of_mem _ hr⟩
    show (r.vals y).orElse (fun _ => colMedian (drop_duplicates (filterCategories raw)) y)
        = colMedian (drop_duplicates (filterCategories raw)) y
    rw [hnone]
    rfl

theorem clean_fills_median_witness :
    (fillRow (drop_duplicates (filterCategories [rowC4, rowC4b])) rowC4).vals 0
        = colMedian (drop_duplicates (filterCategories [rowC4, rowC4b])) 0 ∧
    fillRow (drop_duplicates (filterCategories [rowC4, rowC4b])) rowC4
        ∈ clean [rowC4, rowC4b] :=
  (clean_fills_median [rowC4, rowC4b] 0 (by rfl)).2 rowC4
    (mem_drop_duplicates.mpr (List.mem_cons_self _ _)) rfl

/-- A row with the unrecognized category `traffic`. -/
def rowTraffic : Row := ⟨"T", "traffic", fun _ => some 1⟩

/-- C3 counterexample: a table that is empty after category filtering
cleans to the empty table, yet `yearlySeries` still returns 26 entries —
not an empty output. -/
theorem empty_table_outputs_cex :
    clean [rowTraffic] = [] ∧
    (yearlySeries (clean [rowTraffic]) "air_quality").length = 26 ∧
    yearlySeries (clean [rowTraffic]) "air_quality" ≠ [] := by
  refine ⟨rfl, by simp [yearlySeries], ?_⟩
  intro h
  have := congrArg List.length h
  simp [yearlySeries] at this

/-- C3 amended: on a table that is empty after category filtering, no
operation errors: the keyed outputs (`areaTotals`, `topN`,
`combinedAreaRanking`) are empty, while the fixed-shape outputs are
degenerate — `yearlySeries` has 26 entries all of total 0, `before_after`
is `(0,0,0,0)`, every comfort label is `Other`, and every correlation
entry is `NaN`. -/
theorem empty_table_outputs (raw : List Row) (cat : String)
    (h : filterCategories raw = []) :
    clean raw = [] ∧
    areaTotals (clean raw) cat = [] ∧
    topN (areaTotals (clean raw) cat) 5 = [] ∧
    combinedAreaRanking (clean raw) = [] ∧
    (yearlySeries (clean raw) cat).length = 26 ∧
    (∀ p ∈ yearlySeries (clean raw) cat, p.2 = 0) ∧
    before_after (clean raw) = (0, 0, 0, 0) ∧
    (∀ p ∈ comfortLabels (clean raw), p.2 = "Other") ∧
    (∀ i j : Year, corrEntry (clean raw) i j = none) := by
  have hc : clean raw = [] := by rw [clean, h]; rfl
  rw [hc]
  have hx : x_mean [] = 0 := by
    rw [x_mean,
      List.map_congr_left (fun (y : Year) _ => show air_year [] y = (0:ℚ) from rfl),
      List.map_const', List.sum_replicate]
    simp
  refine ⟨rfl, rfl, rfl, rfl, by simp [yearlySeries], ?_, rfl, ?_, fun i j => rfl⟩
  · intro p hp
    rcases List.mem_map.mp hp with ⟨y, _, rfl⟩
    rfl
  · intro p hp
    rcases List.mem_map.mp hp with ⟨y, _, rfl⟩
    show comfortZone [] y = "Other"
    rw [comfortZone, if_neg]
    rintro ⟨hgt, _⟩
    rw [show air_year [] y = 0 from rfl, hx] at hgt
    exact lt_irrefl 0 hgt

theorem empty_table_outputs_witness :
    filterCategories [rowTraffic] = [] ∧ clean [rowTraffic] = [] ∧
    areaTotals (clean [rowTraffic]) "air_quality" = [] :=
  ⟨rfl, (empty_table_outputs [rowTraffic] "air_quality" rfl).1,
    (empty_table_outputs [rowTraffic] "air_quality" rfl).2.1⟩

/-- An air-quality row on area `A` with all cells 1. -/
def rowC8air : Row := ⟨"A", "air_quality", fun _ => some 1⟩

/-- C8: a row with an unrecognized category is dropped by cleaning, so
the cleaned table — and with it every downstream aggregate — is unchanged
by its presence; and if no recognized row shares its area, that area does
not appear among the `areaTotals` keys. -/
theorem unrecognized_row_excluded (pre post : List Row) (r : Row) (cat : String)
    (hn : recognizedRow r = false) :
    clean (pre ++ r :: post) = clean (pre ++ post) ∧
    areaTotals (clean (pre ++ r :: post)) cat = areaTotals (clean (pre ++ post)) cat ∧
    ((∀ q ∈ pre ++ post, recognizedRow q = true → q.small_area ≠ r.small_area) →
      r.small_area ∉ (areaTotals (clean (pre ++ r :: post)) cat).map Prod.fst) := by
  have hfc : filterCategories (pre ++ r :: post) = filterCategories (pre ++ post) := by
    simp [filterCategories, List.filter_append, hn]
  have hcl : clean (pre ++ r :: post) = clean (pre ++ post) := by
    rw [clean, clean, hfc]
  refine ⟨hcl, by rw [hcl], ?_⟩
  intro hno hmem
  rw [hcl] at hmem
  rcases List.mem_map.mp hmem with ⟨p, hp, hfst⟩
  rw [areaTotals] at hp
  rcases List.mem_map.mp hp with ⟨a, ha, rfl⟩
  rw [groupKeys, sortStrings, List.mem_insertionSort, mem_drop_duplicates] at ha
  rcases List.mem_map.mp ha with ⟨q, hq, rfl⟩
  have hq1 : q ∈ List.map (fillRow (drop_duplicates (filterCategories (pre ++ post))))
      (drop_duplicates (filterCategories (pre ++ post))) :=
    List.mem_of_mem_filter hq
  rcases List.mem_map.mp hq1 with ⟨q0, hq0, rfl⟩
  have hq3 : q0 ∈ filterCategories (pre ++ post) := mem_drop_duplicates.mp hq0
  exact hno q0 (List.mem_of_mem_filter hq3) (List.of_mem_filter hq3) hfst

theorem unrecognized_row_excluded_witness :
    "T" ∉ (areaTotals (clean [rowTraffic, rowC8air]) "air_quality").map Prod.fst :=
  (unrecognized_row_excluded [] [rowC8air] rowTraffic "air_quality" rfl).2.2 (by decide)

/-- An air-quality row on area `B` with all cells 1. -/
def rowC2B : Row := ⟨"B", "air_quality", fun _ => some 1⟩

/-- An air-quality row on area `A` with all cells 1. -/
def rowC2A : Row := ⟨"A", "air_quality", fun _ => some 1⟩

theorem rowTotal_const (a t : String) (c : ℚ) :
    rowTotal ⟨a, t, fun _ => some c⟩ = 26 * c := by
  rw [rowTotal,
    show ((List.finRange 26).map fun y => valD ((fun _ : Year => some c) y))
        = (List.finRange 26).map (fun _ => c) from rfl,
    List.map_const', List.sum_replicate, List.length_finRange]
  simp [nsmul_eq_mul]

/-- C2 counterexample: two air rows with equal totals, given in input
order `B` then `A`.  The groupby step lists areas alphabetically, so the
tied pair comes out as `A` then `B` — not in the original row order. -/
theorem topN_tie_order_cex :
    air_top5 [rowC2B, rowC2A] = [("A", 26), ("B", 26)] ∧
    [rowC2B, rowC2A].map Row.small_area = ["B", "A"] ∧
    air_top5 [rowC2B, rowC2A] ≠ [("B", 26), ("A", 26)] := by
  have hA : rowTotal rowC2A = 26 := by
    have h := rowTotal_const "A" "air_quality" 1
    rw [mul_one] at h
    exact h
  have hB : rowTotal rowC2B = 26 := by
    have h := rowTotal_const "B" "air_quality" 1
    rw [mul_one] at h
    exact h
  have hBA : ¬ (("B" : String) ≤ "A") := by
    rw [String.le_iff_toList_le]
    decide
  have hg : groupKeys (rowsOf [rowC2B, rowC2A] "air_quality") = ["A", "B"] := by
    show sortStrings ["B", "A"] = ["A", "B"]
    simp [sortStrings, List.insertionSort, List.orderedInsert, hBA]
  have h1 : areaTotals [rowC2B, rowC2A] "air_quality"
      = [("A", ([rowC2A].map rowTotal).sum), ("B", ([rowC2B].map rowTotal).sum)] := by
    rw [areaTotals, hg]
    rfl
  have h2 : ([rowC2A].map rowTotal).sum = 26 := by simp [hA]
  have h3 : ([rowC2B].map rowTotal).sum = 26 := by simp [hB]
  have h4 : air_top5 [rowC2B, rowC2A] = topN [("A", 26), ("B", 26)] 5 := by
    show topN (areaTotals [rowC2B, rowC2A] "air_quality") 5 = _
    rw [h1, h2, h3]
  have h5 : topN [("A", (26:ℚ)), ("B", 26)] 5 = [("A", 26), ("B", 26)] := by decide
  refine ⟨h4.trans h5, rfl, ?_⟩
  rw [h4.trans h5]
  decide

/-- C2 amended: `topN` on per-area totals sorts descending by value, and
every returned entry is one of the per-area totals.  The relative order
of areas with equal totals is unspecified — pandas' default
`sort_values` kind is a non-stable quicksort — and, per the
counterexample, in particular it need not be the original input row
order.  Both conclusions hold for every descending-by-value order, so
they do not depend on which admissible tie order the model realizes. -/
theorem topN_desc_values (rows : List Row) (cat : String) (n : ℕ) :
    List.Sorted (· ≥ ·) ((topN (areaTotals rows cat) n).map Prod.snd) ∧
    List.Subperm (topN (areaTotals rows cat) n) (areaTotals rows cat) := by
  refine ⟨topN_sorted_ge _ n, ?_⟩
  exact List.Subperm.trans (List.take_sublist _ _).subperm
    (List.perm_insertionSort valGe _).subperm

/-- C9: the aggregated outputs of a full run do not depend on the random
stream — two runs on the same cached table agree on every aggregate —
while the simulated map coordinates genuinely do depend on it. -/
theorem pipeline_deterministic :
    (∀ (rows : List Row) (selType : String) (selYear : Year) (rng1 rng2 : ℕ → ℚ),
      (fullRun rows selType selYear rng1).1 = (fullRun rows selType selYear rng2).1) ∧
    (∃ (rows : List Row) (selType : String) (selYear : Year) (rng1 rng2 : ℕ → ℚ),
      (fullRun rows selType selYear rng1).2 ≠ (fullRun rows selType selYear rng2).2) :=
  ⟨fun _ _ _ _ _ => rfl,
    ⟨[rowC8air], "air_quality", 0, fun _ => 0, fun _ => 1, by decide⟩⟩
